import Mathlib

/-!
Shallow embedding of the OCR core of the MT2-companion repository
(`src/src-tauri/src/ocr/{capture,preprocess,recognize,mod}.rs`).

Modelling conventions:
* Rust `u32`/`usize` become `Nat`; `i32`/`i64` become `Int` (no value in the
  embedded code can overflow its machine width at the inputs we reason about).
* `f32`/`f64` values become `ℚ`; Rust `as i32`/`as u32` casts of non-negative
  floats truncate toward zero, modelled by `truncQ`/`truncQNat`.
* External crates are abstracted as explicit, pure backend parameters:
  the `screenshots` display backend becomes `ScreenEnv`, the `image` crate's
  `grayscale`/`blur`/`resize` become an `ImageBackend`, the Tesseract engine
  becomes a function field of `OcrEngine`, and SkimMatcherV2
  (`fuzzy_matcher` crate) becomes the `fuzzy_match` field of `CardMatcher`.
  All repository-owned logic is translated statement by statement.
* Raw RGBA pixel buffers are modelled at pixel granularity
  (one `Nat × Nat × Nat × Nat` per pixel instead of four bytes).
-/

deriving instance DecidableEq for Except

/-- Rust `str::to_lowercase` (character-wise lowering; identical to the
library lowering on the ASCII data handled here). -/
def rust_to_lowercase (s : String) : String := ⟨s.data.map Char.toLower⟩

/-- Rust `str::trim`: strip leading and trailing whitespace. -/
def rust_trim (s : String) : String :=
  ⟨((s.data.dropWhile Char.isWhitespace).reverse.dropWhile
      Char.isWhitespace).reverse⟩

/-- Rust `str::len`: length in UTF-8 bytes. -/
def rust_len (s : String) : Nat := s.utf8ByteSize

/-- Rust `str::is_empty`. -/
def rust_is_empty (s : String) : Bool := s.data.isEmpty

/-- Insertion step of the stable sort used to model `sort_unstable`
(on `Nat` values every correct sort produces the same list). -/
def insertLe (v : Nat) : List Nat → List Nat
  | [] => [v]
  | w :: ws => if v ≤ w then v :: w :: ws else w :: insertLe v ws

/-- Ascending sort of a value list, modelling `Vec::sort_unstable`. -/
def sortNat : List Nat → List Nat
  | [] => []
  | v :: vs => insertLe v (sortNat vs)

/-- Truncation toward zero of a rational, as Rust `as i32` does on an `f32`
(`Int.tdiv` is truncating division). -/
def truncQ (q : ℚ) : Int := Int.tdiv q.num q.den

/-- Truncation toward zero, clamped at zero below, as Rust `as u32` does. -/
def truncQNat (q : ℚ) : Nat := (truncQ q).toNat

/-! ## capture.rs -/

/-- `CaptureRegion` from capture.rs: a screen region to capture. -/
structure CaptureRegion where
  x : Int
  y : Int
  width : Nat
  height : Nat
deriving DecidableEq, Repr

/-- `CaptureRegion::is_valid`: positive dimensions. -/
def CaptureRegion.is_valid (r : CaptureRegion) : Bool :=
  decide (0 < r.width) && decide (0 < r.height)

/-- `CaptureRegion::contains`: half-open containment test. -/
def CaptureRegion.contains (r : CaptureRegion) (px py : Int) : Bool :=
  decide (r.x ≤ px) && decide (px < r.x + r.width) &&
  decide (r.y ≤ py) && decide (py < r.y + r.height)

/-- `CaptureError` from capture.rs. -/
inductive CaptureError where
  | NoScreensAvailable
  | RegionOutOfBounds
  | InvalidRegion
  | CaptureFailed (msg : String)
deriving DecidableEq, Repr

/-- An RGBA image buffer (`image::ImageBuffer<Rgba<u8>, Vec<u8>>`),
pixels row-major. -/
structure RgbaImage where
  width : Nat
  height : Nat
  data : List (Nat × Nat × Nat × Nat)
deriving DecidableEq, Repr

/-- Primary display information reported by the `screenshots` backend. -/
structure DisplayInfo where
  width : Nat
  height : Nat
deriving DecidableEq, Repr

/-- Abstraction of the `screenshots` crate backend: the result of
`Screen::all()` and of `capture_area` on the primary screen. -/
structure ScreenEnv where
  screens : Except String (List DisplayInfo)
  capture_area : CaptureRegion → Except String (List (Nat × Nat × Nat × Nat))

/-- `capture_region` from capture.rs (the `feature = "ocr"` implementation),
with the display backend passed explicitly. -/
def capture_region (env : ScreenEnv) (region : CaptureRegion) :
    Except CaptureError RgbaImage :=
  if ¬ region.is_valid then .error .InvalidRegion
  else
    match env.screens with
    | .error e => .error (.CaptureFailed e)
    | .ok [] => .error .NoScreensAvailable
    | .ok (screen :: _) =>
      if region.x < 0 ∨ region.y < 0 ∨
          (screen.width : Int) < region.x + region.width ∨
          (screen.height : Int) < region.y + region.height then
        .error .RegionOutOfBounds
      else
        match env.capture_area region with
        | .error e => .error (.CaptureFailed e)
        | .ok buf =>
          if buf.length = region.width * region.height then
            .ok ⟨region.width, region.height, buf⟩
          else .error (.CaptureFailed "Failed to create image buffer")

/-- `capture_multiple_regions` from capture.rs. -/
def capture_multiple_regions (env : ScreenEnv) (regions : List CaptureRegion) :
    List (Except CaptureError RgbaImage) :=
  regions.map (capture_region env)

/-- The hand-tuned 1920×1080 base layout inside `get_default_card_regions`. -/
def base_regions : List CaptureRegion :=
  [⟨350, 200, 300, 60⟩, ⟨810, 200, 300, 60⟩, ⟨1270, 200, 300, 60⟩,
   ⟨810, 500, 300, 60⟩]

/-- `get_default_card_regions` from capture.rs. The `f32` scale factors and
products are modelled as rationals; at the resolutions reasoned about below
(scale factors 1 and 2) every `f32` operation of the source is exact, so the
rational model coincides with the machine arithmetic. -/
def get_default_card_regions (screen_width screen_height : Nat) :
    List CaptureRegion :=
  let scale_x : ℚ := (screen_width : ℚ) / 1920
  let scale_y : ℚ := (screen_height : ℚ) / 1080
  base_regions.map (fun r =>
    { x := truncQ ((r.x : ℚ) * scale_x)
      y := truncQ ((r.y : ℚ) * scale_y)
      width := truncQNat ((r.width : ℚ) * scale_x)
      height := truncQNat ((r.height : ℚ) * scale_y) })

/-- `get_primary_screen_dimensions` from capture.rs
(the `feature = "ocr"` implementation). -/
def get_primary_screen_dimensions (env : ScreenEnv) :
    Except CaptureError (Nat × Nat) :=
  match env.screens with
  | .error e => .error (.CaptureFailed e)
  | .ok [] => .error .NoScreensAvailable
  | .ok (s :: _) => .ok (s.width, s.height)

/-- `CaptureConfig` from capture.rs. -/
structure CaptureConfig where
  regions : List CaptureRegion
  screen_width : Nat
  screen_height : Nat
deriving DecidableEq, Repr

/-- `CaptureConfig::update_regions`: replace the region layout in place. -/
def CaptureConfig.update_regions (c : CaptureConfig)
    (regions : List CaptureRegion) : CaptureConfig :=
  { c with regions := regions }

/-- `CaptureConfig::capture_all`. -/
def CaptureConfig.capture_all (env : ScreenEnv) (c : CaptureConfig) :
    List (Except CaptureError RgbaImage) :=
  capture_multiple_regions env c.regions

/-! ## preprocess.rs -/

/-- `PreprocessError` from preprocess.rs. -/
inductive PreprocessError where
  | InvalidImage (msg : String)
  | ProcessingFailed (msg : String)
  | EmptyImage
deriving DecidableEq, Repr

/-- `PreprocessConfig` from preprocess.rs (`f32` fields as rationals). -/
structure PreprocessConfig where
  threshold : Nat
  use_adaptive_threshold : Bool
  adaptive_block_size : Nat
  adaptive_c : Int
  denoise : Bool
  invert : Bool
  scale_factor : ℚ
  contrast_factor : ℚ
deriving DecidableEq, Repr

/-- A grayscale image (`image::GrayImage`), pixel values row-major. -/
structure GrayImage where
  width : Nat
  height : Nat
  data : List Nat
deriving DecidableEq, Repr

/-- `GrayImage::get_pixel` on the row-major buffer. -/
def GrayImage.get_pixel (img : GrayImage) (x y : Nat) : Nat :=
  img.data.getD (y * img.width + x) 0

/-- `apply_threshold` from preprocess.rs: fixed binary thresholding. -/
def apply_threshold (img : GrayImage) (threshold : Nat) : GrayImage :=
  { img with data := img.data.map (fun v => if threshold < v then 255 else 0) }

/-- The in-bounds neighbourhood values scanned by the `dy`/`dx` loops of
`apply_adaptive_threshold` and `apply_median_filter` (dy outer, dx inner,
each from `-half` to `half`). -/
def neighborhood (img : GrayImage) (x y half : Nat) : List Nat :=
  (List.range (2 * half + 1)).flatMap (fun ky =>
    (List.range (2 * half + 1)).filterMap (fun kx =>
      let nx : Int := (x : Int) + kx - half
      let ny : Int := (y : Int) + ky - half
      if 0 ≤ nx ∧ nx < (img.width : Int) ∧ 0 ≤ ny ∧ ny < (img.height : Int) then
        some (img.get_pixel nx.toNat ny.toNat)
      else none))

/-- `apply_adaptive_threshold` from preprocess.rs: mean-of-neighbourhood
thresholding; a zero or even block size is a no-op. -/
def apply_adaptive_threshold (img : GrayImage) (block_size : Nat) (c : Int) :
    GrayImage :=
  if block_size = 0 ∨ block_size % 2 = 0 then img
  else
    let half_block := block_size / 2
    { width := img.width, height := img.height,
      data := (List.range img.height).flatMap (fun y =>
        (List.range img.width).map (fun x =>
          let vals := neighborhood img x y half_block
          let mean : Int := if 0 < vals.length then (vals.sum / vals.length : Nat) else 128
          let pixel_value : Int := img.get_pixel x y
          let threshold_value := mean - c
          if threshold_value < pixel_value then 255 else 0)) }

/-- `apply_median_filter` from preprocess.rs: 3×3-style median smoothing;
kernel sizes below 3 or even are a no-op. -/
def apply_median_filter (img : GrayImage) (kernel_size : Nat) : GrayImage :=
  if kernel_size < 3 ∨ kernel_size % 2 = 0 then img
  else
    let half_kernel := kernel_size / 2
    { width := img.width, height := img.height,
      data := (List.range img.height).flatMap (fun y =>
        (List.range img.width).map (fun x =>
          let values := sortNat (neighborhood img x y half_kernel)
          values.getD (values.length / 2) 0)) }

/-- `invert` from preprocess.rs. -/
def invert (img : GrayImage) : GrayImage :=
  { img with data := img.data.map (fun v => 255 - v) }

/-- `enhance_contrast` from preprocess.rs: linear stretch around mid-gray,
clamped to [0, 255] and cast back to `u8`. -/
def enhance_contrast (img : GrayImage) (factor : ℚ) : GrayImage :=
  { img with data := img.data.map (fun v =>
      truncQNat (max 0 (min (((v : ℚ) - 128) * factor + 128) 255))) }

/-- Abstraction of the `image` crate operations called by preprocess.rs:
`imageops::grayscale`, `imageops::blur` and `imageops::resize`. -/
structure ImageBackend where
  grayscale : RgbaImage → GrayImage
  blur : ℚ → GrayImage → GrayImage
  resize : Nat → Nat → GrayImage → GrayImage

/-- The `image` crate's documented dimension behaviour: `grayscale` and
`blur` preserve dimensions, `resize` produces exactly the requested ones. -/
def ImageBackend.DimsCorrect (b : ImageBackend) : Prop :=
  (∀ img, (b.grayscale img).width = img.width) ∧
  (∀ img, (b.grayscale img).height = img.height) ∧
  (∀ sigma img, (b.blur sigma img).width = img.width) ∧
  (∀ sigma img, (b.blur sigma img).height = img.height) ∧
  (∀ w h img, (b.resize w h img).width = w) ∧
  (∀ w h img, (b.resize w h img).height = h)

/-- `upscale` from preprocess.rs: Lanczos3 resize to `f32`-scaled dimensions
when `factor > 1.0`, identity otherwise. -/
def upscale (b : ImageBackend) (img : GrayImage) (factor : ℚ) : GrayImage :=
  if factor ≤ 1 then img
  else
    b.resize (truncQNat ((img.width : ℚ) * factor))
      (truncQNat ((img.height : ℚ) * factor)) img

/-- `preprocess_for_ocr` from preprocess.rs: the six-stage pipeline
(grayscale, contrast, upscale, denoise, threshold, invert). Debug-image
saving is not part of this function in the source. -/
def preprocess_for_ocr (b : ImageBackend) (img : RgbaImage)
    (config : PreprocessConfig) : Except PreprocessError GrayImage :=
  if img.width = 0 ∨ img.height = 0 then .error .EmptyImage
  else
    let p1 := b.grayscale img
    let p2 := if config.contrast_factor ≠ 1 then
        enhance_contrast p1 config.contrast_factor else p1
    let p3 := if 1 < config.scale_factor then
        upscale b p2 config.scale_factor else p2
    let p4 := if config.denoise then
        apply_median_filter (b.blur (1 / 2) p3) 3 else p3
    let p5 := if config.use_adaptive_threshold then
        apply_adaptive_threshold p4 config.adaptive_block_size config.adaptive_c
      else apply_threshold p4 config.threshold
    .ok (if config.invert then invert p5 else p5)

/-! ## recognize.rs -/

/-- `RecognizeError` from recognize.rs. -/
inductive RecognizeError where
  | TesseractInitFailed (msg : String)
  | TesseractError (msg : String)
  | NoCardNamesAvailable
  | InvalidImage
  | MatchingFailed (msg : String)
deriving DecidableEq, Repr

/-- `RecognizeConfig` from recognize.rs. -/
structure RecognizeConfig where
  tesseract_data_path : Option String
  language : String
  psm : Int
  oem : Int
  min_confidence : Int
  min_match_score : Int
  whitelist : Option String
deriving DecidableEq, Repr

/-- `OcrResult` from recognize.rs. -/
structure OcrResult where
  text : String
  confidence : Int
  is_confident : Bool
deriving DecidableEq, Repr

/-- `OcrResult::new`: trims the text and derives `is_confident`. -/
def OcrResult.new (text : String) (confidence min_confidence : Int) :
    OcrResult :=
  { text := rust_trim text
    confidence := confidence
    is_confident := decide (min_confidence ≤ confidence) }

/-- `CardMatch` from recognize.rs (`overall_confidence` as a rational). -/
structure CardMatch where
  card_name : String
  card_id : String
  ocr_text : String
  match_score : Int
  ocr_confidence : Int
  overall_confidence : ℚ
deriving DecidableEq, Repr

/-- `CardMatch::calculate_overall_confidence`: 40% OCR confidence,
60% match score. The source computes in `f64`; modelled exactly in ℚ
(at the integer inputs of the claims the `f64` computation is exact). -/
def CardMatch.calculate_overall_confidence (ocr_confidence match_score : Int) :
    ℚ :=
  ((ocr_confidence : ℚ) * 0.4 + (match_score : ℚ) * 0.6) / 100

/-- `OcrEngine` from recognize.rs; the `tess` field abstracts the whole
Tesseract interaction of `recognize` (init, set_image, get_utf8_text,
mean_text_conf), returning raw text and mean confidence or a backend
error. -/
structure OcrEngine where
  config : RecognizeConfig
  tess : GrayImage → Except RecognizeError (String × Int)

/-- `OcrEngine::recognize` (`feature = "ocr"` implementation): reject
zero-dimension images, then delegate to Tesseract and wrap the output via
`OcrResult::new`. -/
def OcrEngine.recognize (e : OcrEngine) (img : GrayImage) :
    Except RecognizeError OcrResult :=
  if img.width = 0 ∨ img.height = 0 then .error .InvalidImage
  else
    match e.tess img with
    | .error err => .error err
    | .ok (text, confidence) =>
      .ok (OcrResult.new text confidence e.config.min_confidence)

/-- `CardMatcher` from recognize.rs; `fuzzy_match` abstracts
`SkimMatcherV2::fuzzy_match` (an `Option<i64>` score). -/
structure CardMatcher where
  card_names : List (String × String)
  fuzzy_match : String → String → Option Int
  min_score : Int

/-- `CardMatcher::new`: rejects an empty corpus. -/
def CardMatcher.new (card_names : List (String × String))
    (fuzzy : String → String → Option Int) (min_score : Int) :
    Except RecognizeError CardMatcher :=
  if card_names.isEmpty then .error .NoCardNamesAvailable
  else .ok ⟨card_names, fuzzy, min_score⟩

/-- Character-level worker for `split_whitespace` (second argument is the
reversed current word). -/
def splitWsAux : List Char → List Char → List String
  | [], acc => if acc.isEmpty then [] else [⟨acc.reverse⟩]
  | c :: cs, acc =>
    if c.isWhitespace then
      if acc.isEmpty then splitWsAux cs []
      else ⟨acc.reverse⟩ :: splitWsAux cs []
    else splitWsAux cs (c :: acc)

/-- Rust `str::split_whitespace`: whitespace-separated words, empties
dropped. -/
def split_whitespace (s : String) : List String := splitWsAux s.data []

/-- The duplicated update block of `find_best_match`: replace the running
best when the new score strictly exceeds it; `match_score` is capped at
100, `ocr_confidence`/`overall_confidence` are left at 0 for the caller. -/
def fbmUpdate (ocr_text card_id card_name : String) (score : Int)
    (st : Option CardMatch × Int) : Option CardMatch × Int :=
  if st.2 < score then
    (some { card_name := card_name
            card_id := card_id
            ocr_text := ocr_text
            match_score := min score 100
            ocr_confidence := 0
            overall_confidence := 0 }, score)
  else st

/-- `CardMatcher::find_best_match` from recognize.rs: normalize, then scan
the corpus with a running `(best_match, best_score)` state, trying the
whole lowercased name and — when the normalized text is shorter than 10
bytes — each whitespace-separated word of the name. -/
def CardMatcher.find_best_match (m : CardMatcher) (ocr_text : String) :
    Option CardMatch :=
  let ocr_normalized := rust_trim (rust_to_lowercase ocr_text)
  if rust_is_empty ocr_normalized then none
  else
    (m.card_names.foldl (fun st cd =>
      let st1 :=
        match m.fuzzy_match (rust_to_lowercase cd.2) ocr_normalized with
        | some score => fbmUpdate ocr_text cd.1 cd.2 score st
        | none => st
      if rust_len ocr_normalized < 10 then
        (split_whitespace (rust_to_lowercase cd.2)).foldl (fun st2 word =>
          match m.fuzzy_match word ocr_normalized with
          | some word_score => fbmUpdate ocr_text cd.1 cd.2 word_score st2
          | none => st2) st1
      else st1) (none, m.min_score)).1

/-- The `(card_id, card_name, score)` scoring opportunities that
`find_best_match` examines for one corpus entry, in examination order:
the whole-name score, then (for short normalized text) one score per
whitespace-separated word of the name. -/
def candidate_events (m : CardMatcher) (norm : String)
    (cd : String × String) : List (String × String × Int) :=
  ((m.fuzzy_match (rust_to_lowercase cd.2) norm).map
    (fun s => (cd.1, cd.2, s))).toList ++
  (if rust_len norm < 10 then
      (split_whitespace (rust_to_lowercase cd.2)).filterMap (fun w =>
        (m.fuzzy_match w norm).map (fun s => (cd.1, cd.2, s)))
    else [])

/-- All scoring opportunities of `find_best_match`, in examination order
(corpus order, whole name before words). -/
def match_events (m : CardMatcher) (norm : String) :
    List (String × String × Int) :=
  m.card_names.flatMap (candidate_events m norm)

/-- `RecognitionPipeline` from recognize.rs. -/
structure RecognitionPipeline where
  ocr_engine : OcrEngine
  card_matcher : CardMatcher

/-- `RecognitionPipeline::process`: recognize, gate on `is_confident`,
then match. Note the source returns `find_best_match`'s `CardMatch`
unchanged, so its `ocr_confidence` is 0 and `overall_confidence` is 0.0
(unlike `match_results`, which fills them in). -/
def RecognitionPipeline.process (rp : RecognitionPipeline)
    (img : GrayImage) : Except RecognizeError (Option CardMatch) :=
  match rp.ocr_engine.recognize img with
  | .error e => .error e
  | .ok ocr_result =>
    if ¬ ocr_result.is_confident then .ok none
    else .ok (rp.card_matcher.find_best_match ocr_result.text)

/-! ## mod.rs -/

/-- `OcrPipelineError` from mod.rs. -/
inductive OcrPipelineError where
  | Capture (e : CaptureError)
  | Preprocess (e : PreprocessError)
  | Recognize (e : RecognizeError)
  | Configuration (msg : String)
deriving DecidableEq, Repr

/-- `CardDetectionOptions` from mod.rs (the debug-image path reduced to a
string). -/
structure CardDetectionOptions where
  capture : CaptureConfig
  preprocess : PreprocessConfig
  recognize : RecognizeConfig
  save_debug_images : Bool
  debug_image_path : Option String
  min_overall_confidence : ℚ

/-- `DetectedCard` from mod.rs. -/
structure DetectedCard where
  card_id : String
  card_name : String
  region : CaptureRegion
  ocr_confidence : Int
  match_score : Int
  overall_confidence : ℚ
  raw_ocr_text : String
deriving DecidableEq, Repr

/-- `CardDetectionResult` from mod.rs. -/
structure CardDetectionResult where
  detected_cards : List DetectedCard
  average_confidence : ℚ
  success : Bool
  error_message : Option String
deriving DecidableEq, Repr

/-- `CardDetectionResult::new`: successful result with the mean overall
confidence (0 when empty). -/
def CardDetectionResult.new (detected_cards : List DetectedCard) :
    CardDetectionResult :=
  let avg_confidence : ℚ :=
    if detected_cards.isEmpty then 0
    else (detected_cards.map (fun c => c.overall_confidence)).sum /
      (detected_cards.length : ℚ)
  { detected_cards := detected_cards
    average_confidence := avg_confidence
    success := true
    error_message := none }

/-- `OcrPipeline` from mod.rs. -/
structure OcrPipeline where
  recognition_pipeline : RecognitionPipeline
  options : CardDetectionOptions
  card_names : List (String × String)

/-- The per-region body of the `detect_cards` loop: a failed capture or
preprocess, a recognition error, no match, or a match below
`min_overall_confidence` contributes nothing; an accepted match becomes a
`DetectedCard` carrying the region at the same index (zero-area fallback
when out of range). Debug-image saving does not affect the result and is
omitted. -/
def detect_region_step (p : OcrPipeline) (b : ImageBackend) (i : Nat)
    (capture_result : Except CaptureError RgbaImage) : Option DetectedCard :=
  match capture_result with
  | .error _ => none
  | .ok rgba_image =>
    match preprocess_for_ocr b rgba_image p.options.preprocess with
    | .error _ => none
    | .ok gray_image =>
      match p.recognition_pipeline.process gray_image with
      | .ok (some card_match) =>
        if p.options.min_overall_confidence ≤ card_match.overall_confidence
        then
          some { card_id := card_match.card_id
                 card_name := card_match.card_name
                 region := (p.options.capture.regions.get? i).getD ⟨0, 0, 0, 0⟩
                 ocr_confidence := card_match.ocr_confidence
                 match_score := card_match.match_score
                 overall_confidence := card_match.overall_confidence
                 raw_ocr_text := card_match.ocr_text }
        else none
      | .ok none => none
      | .error _ => none

/-- `OcrPipeline::detect_cards` from mod.rs: capture all configured
regions, run each through preprocess + recognition, keep accepted
detections, and aggregate — always an `Ok` at this level. -/
def OcrPipeline.detect_cards (p : OcrPipeline) (env : ScreenEnv)
    (b : ImageBackend) : Except OcrPipelineError CardDetectionResult :=
  let capture_results := CaptureConfig.capture_all env p.options.capture
  .ok (CardDetectionResult.new
    (capture_results.enum.filterMap (fun ic => detect_region_step p b ic.1 ic.2)))

/-- `CalibrationReport` from mod.rs. -/
structure CalibrationReport where
  screen_dimensions : Nat × Nat
  regions_tested : Nat
  successful_captures : Nat
  failed_captures : Nat
  recommended_regions : List CaptureRegion
deriving DecidableEq, Repr

/-- `CalibrationReport::is_successful`. -/
def CalibrationReport.is_successful (r : CalibrationReport) : Bool :=
  decide (r.failed_captures = 0) && decide (0 < r.successful_captures)

/-- `CalibrationReport::success_rate` (`f64` modelled as ℚ). -/
def CalibrationReport.success_rate (r : CalibrationReport) : ℚ :=
  let total := r.successful_captures + r.failed_captures
  if total = 0 then 0
  else ((r.successful_captures : ℚ) / (total : ℚ)) * 100

/-- `calibrate_regions` from mod.rs: probe the screen dimensions (the `?`
propagates a failure), test-capture every configured region counting
successes and failures, and recommend a fresh default layout for the
probed resolution. -/
def calibrate_regions (env : ScreenEnv) (options : CardDetectionOptions) :
    Except OcrPipelineError CalibrationReport :=
  match get_primary_screen_dimensions env with
  | .error e => .error (.Capture e)
  | .ok dimensions =>
    let regions := options.capture.regions
    let successful_captures := regions.countP (fun r =>
      match capture_region env r with
      | .ok _ => true
      | .error _ => false)
    let failed_captures := regions.countP (fun r =>
      match capture_region env r with
      | .ok _ => false
      | .error _ => true)
    .ok { screen_dimensions := dimensions
          regions_tested := regions.length
          successful_captures := successful_captures
          failed_captures := failed_captures
          recommended_regions :=
            get_default_card_regions dimensions.1 dimensions.2 }

/-! ## Shared concrete fixtures for witnesses and counterexamples -/

/-- A display environment with one 1920×1080 screen whose capture calls
always succeed with a correctly sized blank buffer. -/
def demoEnv : ScreenEnv :=
  { screens := .ok [⟨1920, 1080⟩]
    capture_area := fun r =>
      .ok (List.replicate (r.width * r.height) (0, 0, 0, 255)) }

/-- A display environment with one screen whose capture calls always
fail at the backend. -/
def failingCaptureEnv : ScreenEnv :=
  { screens := .ok [⟨1920, 1080⟩]
    capture_area := fun _ => .error "backend denied" }

/-- A display environment with no screens at all. -/
def noScreensEnv : ScreenEnv :=
  { screens := .ok [], capture_area := fun _ => .error "no display" }

/-- Four demo regions whose element at index 2 is invalid (zero width). -/
def demoRegions : List CaptureRegion :=
  [⟨0, 0, 10, 10⟩, ⟨10, 0, 10, 10⟩, ⟨0, 0, 0, 10⟩, ⟨20, 0, 10, 10⟩]

/-- The demo regions with the invalid slot 2 replaced by a valid region. -/
def demoRegionsFixed : List CaptureRegion :=
  [⟨0, 0, 10, 10⟩, ⟨10, 0, 10, 10⟩, ⟨30, 0, 10, 10⟩, ⟨20, 0, 10, 10⟩]

/-! ## C10 -/

/-- C10: `CaptureConfig::update_regions` replaces only the `regions` field
with exactly the given list; `screen_width` and `screen_height` are left
unchanged. -/
theorem update_regions_frame (c : CaptureConfig)
    (regions : List CaptureRegion) :
    (c.update_regions regions).regions = regions ∧
    (c.update_regions regions).screen_width = c.screen_width ∧
    (c.update_regions regions).screen_height = c.screen_height :=
  ⟨rfl, rfl, rfl⟩

/-! ## C1 -/

/-- C1: `capture_multiple_regions` returns one result per input region, in
order, the i-th being exactly `capture_region` of the i-th input; the
result at an index depends only on the region at that index, so a failure
for one region never changes any other result. -/
theorem capture_multiple_regions_isolation (env : ScreenEnv)
    (regions : List CaptureRegion) :
    (capture_multiple_regions env regions).length = regions.length ∧
    (∀ i : Nat, (capture_multiple_regions env regions)[i]? =
      (regions[i]?).map (capture_region env)) ∧
    (∀ (regions2 : List CaptureRegion) (i : Nat),
      regions[i]? = regions2[i]? →
      (capture_multiple_regions env regions)[i]? =
        (capture_multiple_regions env regions2)[i]?) := by
  refine ⟨List.length_map _ _,
    fun i => by simp [capture_multiple_regions, List.getElem?_map], ?_⟩
  intro regions2 i h
  simp only [capture_multiple_regions, List.getElem?_map]
  rw [h]

/-- Witness for C1: four demo regions with slot 2 invalid — four results,
slot 2 is the `InvalidRegion` error, slot 0 a successful image, and
replacing the bad slot 2 does not change the result at slot 0. -/
theorem capture_multiple_regions_isolation_witness :
    (capture_multiple_regions demoEnv demoRegions).length = 4 ∧
    (capture_multiple_regions demoEnv demoRegions)[2]? =
      some (.error .InvalidRegion) ∧
    (capture_multiple_regions demoEnv demoRegions)[0]? =
      some (.ok ⟨10, 10, List.replicate 100 (0, 0, 0, 255)⟩) ∧
    (capture_multiple_regions demoEnv demoRegions)[0]? =
      (capture_multiple_regions demoEnv demoRegionsFixed)[0]? := by
  refine ⟨?_, ?_, ?_, ?_⟩
  · exact ((capture_multiple_regions_isolation demoEnv demoRegions).1).trans
      (by decide)
  · exact (((capture_multiple_regions_isolation demoEnv demoRegions).2.1
      2)).trans (by decide)
  · exact (((capture_multiple_regions_isolation demoEnv demoRegions).2.1
      0)).trans (by decide)
  · exact (capture_multiple_regions_isolation demoEnv demoRegions).2.2
      demoRegionsFixed 0 (by decide)

/-! ## C9 -/

/-- C9: `get_default_card_regions(1920, 1080)` returns exactly 4 regions,
all valid, and `get_default_card_regions(3840, 2160)` is that layout with
every coordinate and dimension exactly doubled. -/
theorem get_default_card_regions_spec :
    (get_default_card_regions 1920 1080).length = 4 ∧
    (get_default_card_regions 1920 1080).all CaptureRegion.is_valid = true ∧
    get_default_card_regions 3840 2160 =
      (get_default_card_regions 1920 1080).map
        (fun r => ⟨2 * r.x, 2 * r.y, 2 * r.width, 2 * r.height⟩) := by
  refine ⟨?_, ?_, ?_⟩
  · norm_num [get_default_card_regions, base_regions]
  · norm_num [get_default_card_regions, base_regions, CaptureRegion.is_valid,
      truncQ, truncQNat]
  · norm_num [get_default_card_regions, base_regions, truncQ, truncQNat]
    decide

/-! ## C7 -/

/-- C7: `calculate_overall_confidence` is the weighted blend
`(ocr_confidence * 0.4 + match_score * 0.6) / 100`; in particular it gives
0.68 at (80, 60) and 1.0 at (100, 100). -/
theorem calculate_overall_confidence_spec :
    (∀ ocr_confidence match_score : Int,
      CardMatch.calculate_overall_confidence ocr_confidence match_score =
        ((ocr_confidence : ℚ) * 0.4 + (match_score : ℚ) * 0.6) / 100) ∧
    CardMatch.calculate_overall_confidence 80 60 = 0.68 ∧
    CardMatch.calculate_overall_confidence 100 100 = 1 := by
  refine ⟨fun _ _ => rfl, ?_, ?_⟩
  · norm_num [CardMatch.calculate_overall_confidence]
  · norm_num [CardMatch.calculate_overall_confidence]

/-! ## C3 -/

/-- C3 counterexample: on 0/255-only single-pixel images, fixed
thresholding with threshold 255 turns a 255 pixel into 0, and adaptive
thresholding with the valid odd block size 1 and constant 1 turns a 0
pixel into 255 — so neither operation is idempotent for arbitrary
parameters, contrary to the claim. -/
theorem threshold_idempotence_counterexample :
    (⟨1, 1, [255]⟩ : GrayImage).data.all (fun v => v == 0 || v == 255) = true ∧
    apply_threshold ⟨1, 1, [255]⟩ 255 ≠ (⟨1, 1, [255]⟩ : GrayImage) ∧
    (⟨1, 1, [0]⟩ : GrayImage).data.all (fun v => v == 0 || v == 255) = true ∧
    (1 % 2 = 1 ∧ (0 : Nat) < 1) ∧
    apply_adaptive_threshold ⟨1, 1, [0]⟩ 1 1 ≠ (⟨1, 1, [0]⟩ : GrayImage) := by
  decide

/-- Mapping the fixed-threshold function over a 0/255-only value list with
threshold below 255 is the identity. -/
theorem binarized_map_threshold_eq (threshold : Nat) (l : List Nat)
    (hl : ∀ v ∈ l, v = 0 ∨ v = 255) (ht : threshold < 255) :
    l.map (fun v => if threshold < v then 255 else 0) = l := by
  induction l with
  | nil => rfl
  | cons v vs ih =>
    have hv := hl v (List.mem_cons_self v vs)
    have hvs := ih (fun w hw => hl w (List.mem_cons_of_mem v hw))
    rcases hv with rfl | rfl
    · simp [hvs, Nat.not_lt_zero]
    · simp [hvs, ht]

/-- C3 (amended): fixed thresholding (`apply_threshold`) with any
threshold below 255 leaves a 0/255-only grayscale image unchanged;
adaptive thresholding is not idempotent in general (see the
counterexample). -/
theorem apply_threshold_idempotent (img : GrayImage) (threshold : Nat)
    (hbin : ∀ v ∈ img.data, v = 0 ∨ v = 255) (ht : threshold < 255) :
    apply_threshold img threshold = img := by
  cases img with
  | mk w h data =>
    simpa [apply_threshold] using binarized_map_threshold_eq threshold data hbin ht

/-- Witness for C3's amended theorem at a concrete binarized image and
threshold 127. -/
theorem apply_threshold_idempotent_witness :
    apply_threshold ⟨1, 2, [0, 255]⟩ 127 = ⟨1, 2, [0, 255]⟩ :=
  apply_threshold_idempotent ⟨1, 2, [0, 255]⟩ 127 (by decide) (by decide)

/-! ## C4 and C5 -/

/-- A preprocessing configuration with every optional stage disabled
(fixed threshold 127, no adaptive threshold, no denoise, no invert, no
upscale, no contrast change). -/
def demoPreprocessConfig : PreprocessConfig :=
  ⟨127, false, 11, 2, false, false, 1, 1⟩

/-- A recognition configuration with the default thresholds (60/60) and
no whitelist. -/
def demoRecognizeConfig : RecognizeConfig :=
  ⟨none, "eng", 7, 3, 60, 60, none⟩

/-- Detection options over a single small region with the source's
default `min_overall_confidence` of 0.6. -/
def demoOptions : CardDetectionOptions :=
  { capture := ⟨[⟨0, 0, 2, 1⟩], 1920, 1080⟩
    preprocess := demoPreprocessConfig
    recognize := demoRecognizeConfig
    save_debug_images := false
    debug_image_path := none
    min_overall_confidence := 6 / 10 }

/-- C4 counterexample: in an environment with no display,
`calibrate_regions` propagates the `NoScreensAvailable` probe failure as
an error instead of returning a report. -/
theorem calibrate_regions_fails_without_display :
    calibrate_regions noScreensEnv demoOptions =
      .error (.Capture .NoScreensAvailable) := by
  rfl

/-- C4 (amended): whenever probing the screen dimensions succeeds,
`calibrate_regions` returns a report (per-region capture failures are
only counted, never propagated); if every configured region fails to
capture, the report has `successful_captures = 0`. -/
theorem calibrate_regions_total_on_probed_screen (env : ScreenEnv)
    (options : CardDetectionOptions) (dims : Nat × Nat)
    (hdims : get_primary_screen_dimensions env = .ok dims) :
    ∃ report, calibrate_regions env options = .ok report ∧
      report.screen_dimensions = dims ∧
      report.successful_captures = options.capture.regions.countP
        (fun r => match capture_region env r with
          | .ok _ => true
          | .error _ => false) ∧
      ((∀ r ∈ options.capture.regions,
          ∃ e, capture_region env r = .error e) →
        report.successful_captures = 0) := by
  have hcal : calibrate_regions env options = .ok
      { screen_dimensions := dims
        regions_tested := options.capture.regions.length
        successful_captures := options.capture.regions.countP
          (fun r => match capture_region env r with
            | .ok _ => true
            | .error _ => false)
        failed_captures := options.capture.regions.countP
          (fun r => match capture_region env r with
            | .ok _ => false
            | .error _ => true)
        recommended_regions := get_default_card_regions dims.1 dims.2 } := by
    simp only [calibrate_regions, hdims]
  refine ⟨_, hcal, rfl, rfl, ?_⟩
  intro hall
  refine List.countP_eq_zero.mpr (fun r hr => ?_)
  obtain ⟨e, he⟩ := hall r hr
  simp [he]

/-- Witness for C4's amended theorem: one screen, every capture denied by
the backend — calibration still returns a report, with zero successes. -/
theorem calibrate_regions_total_witness :
    ∃ report, calibrate_regions failingCaptureEnv demoOptions = .ok report ∧
      report.screen_dimensions = (1920, 1080) ∧
      report.successful_captures = 0 := by
  obtain ⟨report, h1, h2, h3, h4⟩ :=
    calibrate_regions_total_on_probed_screen failingCaptureEnv demoOptions
      (1920, 1080) (by rfl)
  refine ⟨report, h1, h2, ?_⟩
  refine h4 (fun r hr => ?_)
  have : r = ⟨0, 0, 2, 1⟩ := by
    simpa [demoOptions] using hr
  exact ⟨.CaptureFailed "backend denied", by rw [this]; rfl⟩

/-- `success_rate` always equals the claim's formula in exact rational
arithmetic (when nothing was tested both sides are 0, division by zero
being 0 in ℚ). -/
theorem success_rate_formula (r : CalibrationReport) :
    r.success_rate = (r.successful_captures : ℚ) /
      ((r.successful_captures : ℚ) + (r.failed_captures : ℚ)) * 100 := by
  unfold CalibrationReport.success_rate
  by_cases htot : r.successful_captures + r.failed_captures = 0
  · have h1 : r.successful_captures = 0 := by omega
    have h2 : r.failed_captures = 0 := by omega
    simp [htot, h1, h2]
  · simp only [htot, if_false]
    push_cast
    ring

/-- `is_successful` holds exactly when there were no failures and at least
one success. -/
theorem is_successful_iff (r : CalibrationReport) :
    r.is_successful = true ↔
      r.failed_captures = 0 ∧ 0 < r.successful_captures := by
  simp [CalibrationReport.is_successful]

/-- C5: every report produced by `calibrate_regions` has
`success_rate = successes / (successes + failures) * 100` (0 when no
regions were tested), `is_successful` exactly when there were no failures
and at least one success, and `recommended_regions` equal to the freshly
generated default layout for the probed screen resolution — regardless of
how the existing layout's captures fared. -/
theorem calibration_report_properties (env : ScreenEnv)
    (options : CardDetectionOptions) (report : CalibrationReport)
    (h : calibrate_regions env options = .ok report) :
    report.success_rate = (report.successful_captures : ℚ) /
      ((report.successful_captures : ℚ) + (report.failed_captures : ℚ)) *
        100 ∧
    (report.regions_tested = 0 → report.success_rate = 0) ∧
    (report.is_successful = true ↔
      report.failed_captures = 0 ∧ 0 < report.successful_captures) ∧
    get_primary_screen_dimensions env = .ok report.screen_dimensions ∧
    report.recommended_regions =
      get_default_card_regions report.screen_dimensions.1
        report.screen_dimensions.2 := by
  cases hd : get_primary_screen_dimensions env with
  | error e =>
    simp only [calibrate_regions, hd] at h
    exact Except.noConfusion h
  | ok dims =>
    simp only [calibrate_regions, hd, Except.ok.injEq] at h
    subst h
    refine ⟨success_rate_formula _, ?_, is_successful_iff _, rfl, rfl⟩
    intro h0
    have hreg : options.capture.regions = [] :=
      List.length_eq_zero.mp h0
    simp [CalibrationReport.success_rate, hreg]

/-- The report `calibrate_regions` produces in the all-captures-failing
demo environment: one region tested, zero successes, one failure, the
1920×1080 default layout recommended. -/
def demoReport : CalibrationReport :=
  ⟨(1920, 1080), 1, 0, 1,
   [⟨350, 200, 300, 60⟩, ⟨810, 200, 300, 60⟩, ⟨1270, 200, 300, 60⟩,
    ⟨810, 500, 300, 60⟩]⟩

/-- Witness for C5 at the concrete demo environment and report. -/
theorem calibration_report_properties_witness :
    demoReport.success_rate = (demoReport.successful_captures : ℚ) /
      ((demoReport.successful_captures : ℚ) +
        (demoReport.failed_captures : ℚ)) * 100 ∧
    (demoReport.regions_tested = 0 → demoReport.success_rate = 0) ∧
    (demoReport.is_successful = true ↔
      demoReport.failed_captures = 0 ∧ 0 < demoReport.successful_captures) ∧
    get_primary_screen_dimensions failingCaptureEnv =
      .ok demoReport.screen_dimensions ∧
    demoReport.recommended_regions =
      get_default_card_regions demoReport.screen_dimensions.1
        demoReport.screen_dimensions.2 :=
  calibration_report_properties failingCaptureEnv demoOptions demoReport (by
    norm_num [calibrate_regions, get_primary_screen_dimensions,
      failingCaptureEnv, demoOptions, demoPreprocessConfig,
      demoRecognizeConfig, demoReport, capture_region,
      CaptureRegion.is_valid, get_default_card_regions, base_regions,
      truncQ, truncQNat, List.countP, List.countP.go])

/-! ## C8 -/

/-- `apply_threshold` keeps the width. -/
theorem apply_threshold_width (img : GrayImage) (t : Nat) :
    (apply_threshold img t).width = img.width := rfl

/-- `apply_threshold` keeps the height. -/
theorem apply_threshold_height (img : GrayImage) (t : Nat) :
    (apply_threshold img t).height = img.height := rfl

/-- `invert` keeps the width. -/
theorem invert_width (img : GrayImage) : (invert img).width = img.width := rfl

/-- `invert` keeps the height. -/
theorem invert_height (img : GrayImage) :
    (invert img).height = img.height := rfl

/-- `enhance_contrast` keeps the width. -/
theorem enhance_contrast_width (img : GrayImage) (f : ℚ) :
    (enhance_contrast img f).width = img.width := rfl

/-- `enhance_contrast` keeps the height. -/
theorem enhance_contrast_height (img : GrayImage) (f : ℚ) :
    (enhance_contrast img f).height = img.height := rfl

/-- `apply_adaptive_threshold` keeps the width. -/
theorem apply_adaptive_threshold_width (img : GrayImage) (bs : Nat)
    (c : Int) : (apply_adaptive_threshold img bs c).width = img.width := by
  unfold apply_adaptive_threshold; split <;> rfl

/-- `apply_adaptive_threshold` keeps the height. -/
theorem apply_adaptive_threshold_height (img : GrayImage) (bs : Nat)
    (c : Int) : (apply_adaptive_threshold img bs c).height = img.height := by
  unfold apply_adaptive_threshold; split <;> rfl

/-- `apply_median_filter` keeps the width. -/
theorem apply_median_filter_width (img : GrayImage) (k : Nat) :
    (apply_median_filter img k).width = img.width := by
  unfold apply_median_filter; split <;> rfl

/-- `apply_median_filter` keeps the height. -/
theorem apply_median_filter_height (img : GrayImage) (k : Nat) :
    (apply_median_filter img k).height = img.height := by
  unfold apply_median_filter; split <;> rfl

/-- On a non-empty input, `preprocess_for_ocr` succeeds and its output
dimensions are the input dimensions — scaled and truncated when
`scale_factor > 1`. -/
theorem preprocess_for_ocr_ok_dims (b : ImageBackend) (hb : b.DimsCorrect)
    (img : RgbaImage) (config : PreprocessConfig)
    (hw : 0 < img.width) (hh : 0 < img.height) :
    ∃ out, preprocess_for_ocr b img config = .ok out ∧
      out.width = (if 1 < config.scale_factor then
          truncQNat ((img.width : ℚ) * config.scale_factor) else img.width) ∧
      out.height = (if 1 < config.scale_factor then
          truncQNat ((img.height : ℚ) * config.scale_factor) else
            img.height) := by
  obtain ⟨hg1, hg2, hb1, hb2, hr1, hr2⟩ := hb
  have hnz : ¬ (img.width = 0 ∨ img.height = 0) := by omega
  unfold preprocess_for_ocr
  rw [if_neg hnz]
  refine ⟨_, rfl, ?_, ?_⟩ <;> dsimp only <;>
  · set p1 := b.grayscale img with hp1
    set p2 := if config.contrast_factor ≠ 1 then
        enhance_contrast p1 config.contrast_factor else p1 with hp2
    set p3 := if 1 < config.scale_factor then
        upscale b p2 config.scale_factor else p2 with hp3
    set p4 := if config.denoise then
        apply_median_filter (b.blur (1 / 2) p3) 3 else p3 with hp4
    set p5 := if config.use_adaptive_threshold then
        apply_adaptive_threshold p4 config.adaptive_block_size
          config.adaptive_c
      else apply_threshold p4 config.threshold with hp5
    have w2 : p2.width = img.width ∧ p2.height = img.height := by
      rw [hp2]; split_ifs <;>
        simp [enhance_contrast_width, enhance_contrast_height, hp1, hg1, hg2]
    have w3 : p3.width = (if 1 < config.scale_factor then
          truncQNat ((img.width : ℚ) * config.scale_factor) else img.width) ∧
        p3.height = (if 1 < config.scale_factor then
          truncQNat ((img.height : ℚ) * config.scale_factor) else
            img.height) := by
      rw [hp3]; split_ifs with hs
      · rw [upscale, if_neg (not_le.mpr hs), hr1, hr2, w2.1, w2.2]
        exact ⟨rfl, rfl⟩
      · exact w2
    have w4 : p4.width = p3.width ∧ p4.height = p3.height := by
      rw [hp4]; split_ifs <;>
        simp [apply_median_filter_width, apply_median_filter_height, hb1,
          hb2]
    have w5 : p5.width = p4.width ∧ p5.height = p4.height := by
      rw [hp5]; split_ifs <;>
        simp [apply_adaptive_threshold_width,
          apply_adaptive_threshold_height, apply_threshold_width,
          apply_threshold_height]
    cases hinv : config.invert <;>
      simp only [hinv, invert_width, invert_height, w5.1, w5.2, w4.1, w4.2,
        w3.1, w3.2, Bool.false_eq_true, ite_true, ite_false, if_true,
        if_false]

/-- C8 (amended): `preprocess_for_ocr` fails with `EmptyImage` exactly
when an input dimension is zero, never fails otherwise, and on success
the output dimensions are the input dimensions multiplied by the scale
factor and truncated to integers when `scale_factor > 1`, and unchanged
otherwise. -/
theorem preprocess_for_ocr_spec (b : ImageBackend) (hb : b.DimsCorrect)
    (img : RgbaImage) (config : PreprocessConfig) :
    (preprocess_for_ocr b img config = .error .EmptyImage ↔
      img.width = 0 ∨ img.height = 0) ∧
    (∀ e, preprocess_for_ocr b img config = .error e → e = .EmptyImage) ∧
    (0 < img.width → 0 < img.height →
      ∃ out, preprocess_for_ocr b img config = .ok out ∧
        out.width = (if 1 < config.scale_factor then
            truncQNat ((img.width : ℚ) * config.scale_factor) else
              img.width) ∧
        out.height = (if 1 < config.scale_factor then
            truncQNat ((img.height : ℚ) * config.scale_factor) else
              img.height)) := by
  by_cases hz : img.width = 0 ∨ img.height = 0
  · refine ⟨by simp [preprocess_for_ocr, hz], ?_, ?_⟩
    · intro e he
      rw [preprocess_for_ocr, if_pos hz] at he
      exact (Except.error.injEq _ _ ▸ he).symm
    · intro hw hh
      exact absurd hz (by omega)
  · have hw : 0 < img.width := by omega
    have hh : 0 < img.height := by omega
    obtain ⟨out, hout, hw2, hh2⟩ :=
      preprocess_for_ocr_ok_dims b hb img config hw hh
    refine ⟨?_, ?_, fun _ _ => ⟨out, hout, hw2, hh2⟩⟩
    · rw [hout]
      simp [hz]
    · intro e he
      rw [hout] at he
      exact Except.noConfusion he

/-- A concrete, dimension-correct backend for the `image` crate
operations: red-channel grayscale, identity blur, zero-filled resize. -/
def sampleBackend : ImageBackend :=
  { grayscale := fun img => ⟨img.width, img.height,
      img.data.map (fun p => p.1)⟩
    blur := fun _ img => img
    resize := fun w h _ => ⟨w, h, List.replicate (w * h) 0⟩ }

/-- The sample backend has the `image` crate's dimension behaviour. -/
theorem sampleBackend_dims : sampleBackend.DimsCorrect :=
  ⟨fun _ => rfl, fun _ => rfl, fun _ _ => rfl, fun _ _ => rfl,
   fun _ _ _ => rfl, fun _ _ _ => rfl⟩

/-- A 3×3 all-black RGBA image. -/
def imgThree : RgbaImage := ⟨3, 3, List.replicate 9 (0, 0, 0, 255)⟩

/-- A preprocessing configuration upscaling by 1.5 with everything else
disabled. -/
def scaleFifteenConfig : PreprocessConfig :=
  ⟨127, false, 11, 2, false, false, 3 / 2, 1⟩

/-- C8 counterexample: at scale factor 1.5 on a 3×3 image the output is
4×4, but 3 × 1.5 = 4.5, so the output dimensions are the truncation of
(input × scale factor), not that product itself as the claim states. -/
theorem preprocess_dims_counterexample :
    (∃ out, preprocess_for_ocr sampleBackend imgThree scaleFifteenConfig =
        .ok out ∧ out.width = 4 ∧ out.height = 4) ∧
    ¬ ((4 : ℚ) = (imgThree.width : ℚ) * scaleFifteenConfig.scale_factor) := by
  constructor
  · obtain ⟨out, hout, hw2, hh2⟩ :=
      preprocess_for_ocr_ok_dims sampleBackend sampleBackend_dims imgThree
        scaleFifteenConfig (by decide) (by decide)
    refine ⟨out, hout, ?_, ?_⟩
    · rw [hw2]
      norm_num [imgThree, scaleFifteenConfig, truncQNat, truncQ,
        show ((3 : ℚ) * (3 / 2)) = 9 / 2 by norm_num]
      decide
    · rw [hh2]
      norm_num [imgThree, scaleFifteenConfig, truncQNat, truncQ,
        show ((3 : ℚ) * (3 / 2)) = 9 / 2 by norm_num]
      decide
  · norm_num [imgThree, scaleFifteenConfig]

/-- Witness for C8's amended theorem: a 2×1 image with no upscaling comes
back 2×1, and the same pipeline rejects a 0×0 image with `EmptyImage`. -/
theorem preprocess_for_ocr_spec_witness :
    (0 : Nat) < 2 ∧
    (∃ out, preprocess_for_ocr sampleBackend ⟨2, 1, [(0, 0, 0, 255),
        (255, 255, 255, 255)]⟩ demoPreprocessConfig = .ok out ∧
      out.width = 2 ∧ out.height = 1) ∧
    (preprocess_for_ocr sampleBackend ⟨0, 0, []⟩ demoPreprocessConfig =
        .error .EmptyImage ↔ (0 : Nat) = 0 ∨ (0 : Nat) = 0) := by
  refine ⟨by decide, ?_, ?_⟩
  · obtain ⟨out, hout, hw2, hh2⟩ :=
      (preprocess_for_ocr_spec sampleBackend sampleBackend_dims
        ⟨2, 1, [(0, 0, 0, 255), (255, 255, 255, 255)]⟩
        demoPreprocessConfig).2.2 (by decide) (by decide)
    refine ⟨out, hout, ?_, ?_⟩
    · rw [hw2]
      norm_num [demoPreprocessConfig]
    · rw [hh2]
      norm_num [demoPreprocessConfig]
  · exact (preprocess_for_ocr_spec sampleBackend sampleBackend_dims
      ⟨0, 0, []⟩ demoPreprocessConfig).1

/-! ## C2 -/

/-- A matcher backend scoring 100 for exact (normalized) equality and
nothing otherwise. -/
def demoFuzzy : String → String → Option Int :=
  fun a b => if a = b then some 100 else none

/-- A one-card corpus matcher with the default minimum score 60. -/
def demoMatcher : CardMatcher :=
  { card_names := [("banished_fel", "Fel")]
    fuzzy_match := demoFuzzy
    min_score := 60 }

/-- A Tesseract backend that always reads "Fel" with confidence 95. -/
def demoTess : GrayImage → Except RecognizeError (String × Int) :=
  fun _ => .ok ("Fel", 95)

/-- The demo OCR engine. -/
def demoEngine : OcrEngine :=
  { config := demoRecognizeConfig, tess := demoTess }

/-- A fully concrete pipeline: one capturable region, trivial
preprocessing, an OCR backend reading "Fel" at confidence 95, a corpus
containing "Fel", and `min_overall_confidence = 0.6`. -/
def demoPipeline : OcrPipeline :=
  { recognition_pipeline :=
      { ocr_engine := demoEngine, card_matcher := demoMatcher }
    options := demoOptions
    card_names := [("banished_fel", "Fel")] }

/-- The 2×1 image the demo environment captures for the configured
region. -/
def demoCapturedImage : RgbaImage :=
  ⟨2, 1, [(0, 0, 0, 255), (0, 0, 0, 255)]⟩

/-- The preprocessed 2×1 grayscale image. -/
def demoGray : GrayImage := ⟨2, 1, [0, 0]⟩

/-- The match `find_best_match` produces for "Fel": score 100, but
`ocr_confidence` and `overall_confidence` still at their 0 placeholders. -/
def demoCardMatch : CardMatch := ⟨"Fel", "banished_fel", "Fel", 100, 0, 0⟩

/-- C2 (code-bug evidence): in a run where the region's capture,
preprocessing and recognition all succeed and the matcher returns a match
whose fused overall confidence (95·0.4 + 100·0.6)/100 = 0.98 clears
`min_overall_confidence = 0.6`, the claim requires a `DetectedCard` —
but `detect_cards` compares the threshold against the
`overall_confidence` field that `RecognitionPipeline::process` leaves at
0.0 (fusion is only performed in `match_results`), so the run produces no
detections at all. -/
theorem detect_cards_ignores_fused_confidence :
    capture_region demoEnv ⟨0, 0, 2, 1⟩ = .ok demoCapturedImage ∧
    preprocess_for_ocr sampleBackend demoCapturedImage
      demoPreprocessConfig = .ok demoGray ∧
    demoPipeline.recognition_pipeline.process demoGray =
      .ok (some demoCardMatch) ∧
    demoCardMatch.match_score = 100 ∧
    demoCardMatch.overall_confidence = 0 ∧
    CardMatch.calculate_overall_confidence 95 demoCardMatch.match_score =
      98 / 100 ∧
    demoPipeline.options.min_overall_confidence ≤ 98 / 100 ∧
    OcrPipeline.detect_cards demoPipeline demoEnv sampleBackend =
      .ok ⟨[], 0, true, none⟩ := by
  have hpre : preprocess_for_ocr sampleBackend demoCapturedImage
      demoPreprocessConfig = .ok demoGray := by
    norm_num [preprocess_for_ocr, demoPreprocessConfig, demoCapturedImage,
      demoGray, sampleBackend, upscale, apply_threshold]
  have hproc : demoPipeline.recognition_pipeline.process demoGray =
      .ok (some demoCardMatch) := by decide
  refine ⟨by decide, hpre, hproc, rfl, rfl, ?_, ?_, ?_⟩
  · norm_num [CardMatch.calculate_overall_confidence, demoCardMatch]
  · norm_num [demoPipeline, demoOptions]
  · have hopt : demoPipeline.options.preprocess = demoPreprocessConfig :=
      rfl
    have hstep : detect_region_step demoPipeline sampleBackend 0
        (.ok demoCapturedImage) = none := by
      simp only [detect_region_step, hopt, hpre, hproc]
      rw [if_neg (by norm_num [demoPipeline, demoOptions, demoCardMatch] :
        ¬ demoPipeline.options.min_overall_confidence ≤
          demoCardMatch.overall_confidence)]
    have hcap : CaptureConfig.capture_all demoEnv
        demoPipeline.options.capture = [.ok demoCapturedImage] := by decide
    have henum : ([Except.ok demoCapturedImage] :
        List (Except CaptureError RgbaImage)).enum =
        [(0, .ok demoCapturedImage)] := rfl
    unfold OcrPipeline.detect_cards
    rw [hcap]
    dsimp only
    rw [henum]
    simp only [List.filterMap_cons, List.filterMap_nil, hstep]
    rfl

/-! ## C6 -/

/-- The score carried by a scoring opportunity. -/
def eScore (e : String × String × Int) : Int := e.2.2

/-- The `CardMatch` that accepting a scoring opportunity builds
(score capped at 100, confidence fields left at 0). -/
def mkEventMatch (t : String) (e : String × String × Int) : CardMatch :=
  { card_name := e.2.1
    card_id := e.1
    ocr_text := t
    match_score := min (eScore e) 100
    ocr_confidence := 0
    overall_confidence := 0 }

/-- The running-best update of `find_best_match`, viewed as a step over a
scoring opportunity. -/
def evStep (t : String) (st : Option CardMatch × Int)
    (e : String × String × Int) : Option CardMatch × Int :=
  fbmUpdate t e.1 e.2.1 e.2.2 st

/-- Folding the step over the word-pass events of one candidate equals
the source's inner word loop. -/
theorem foldl_evStep_filterMap (m : CardMatcher) (t norm : String)
    (cd : String × String) (l : List String) (st : Option CardMatch × Int) :
    (l.filterMap (fun w =>
        (m.fuzzy_match w norm).map (fun s => (cd.1, cd.2, s)))).foldl
      (evStep t) st =
    l.foldl (fun st2 word =>
      match m.fuzzy_match word norm with
      | some word_score => fbmUpdate t cd.1 cd.2 word_score st2
      | none => st2) st := by
  induction l generalizing st with
  | nil => rfl
  | cons w ws ih =>
    cases hw : m.fuzzy_match w norm with
    | none => simp [List.filterMap_cons, hw, ih]
    | some s => simp [List.filterMap_cons, hw, ih, evStep]

/-- Folding the step over all events of one candidate equals the
source's per-candidate body (whole-name pass, then word pass when the
normalized text is short). -/
theorem foldl_evStep_candidate (m : CardMatcher) (t norm : String)
    (cd : String × String) (st : Option CardMatch × Int) :
    (candidate_events m norm cd).foldl (evStep t) st =
    (let st1 :=
        match m.fuzzy_match (rust_to_lowercase cd.2) norm with
        | some score => fbmUpdate t cd.1 cd.2 score st
        | none => st
      if rust_len norm < 10 then
        (split_whitespace (rust_to_lowercase cd.2)).foldl (fun st2 word =>
          match m.fuzzy_match word norm with
          | some word_score => fbmUpdate t cd.1 cd.2 word_score st2
          | none => st2) st1
      else st1) := by
  unfold candidate_events
  rw [List.foldl_append]
  cases hw : m.fuzzy_match (rust_to_lowercase cd.2) norm with
  | none =>
    by_cases hlen : rust_len norm < 10
    · simp [hw, hlen, foldl_evStep_filterMap]
    · simp [hw, hlen]
  | some s =>
    by_cases hlen : rust_len norm < 10
    · simp [hw, hlen, foldl_evStep_filterMap, evStep]
    · simp [hw, hlen, evStep]

/-- Folding the step over all match events equals the source's
corpus loop. -/
theorem foldl_evStep_flatMap (m : CardMatcher) (t norm : String)
    (cds : List (String × String)) (st : Option CardMatch × Int) :
    (cds.flatMap (candidate_events m norm)).foldl (evStep t) st =
    cds.foldl (fun st cd =>
      let st1 :=
        match m.fuzzy_match (rust_to_lowercase cd.2) norm with
        | some score => fbmUpdate t cd.1 cd.2 score st
        | none => st
      if rust_len norm < 10 then
        (split_whitespace (rust_to_lowercase cd.2)).foldl (fun st2 word =>
          match m.fuzzy_match word norm with
          | some word_score => fbmUpdate t cd.1 cd.2 word_score st2
          | none => st2) st1
      else st1) st := by
  induction cds generalizing st with
  | nil => rfl
  | cons cd cds ih =>
    have hcons : ((cd :: cds).flatMap (candidate_events m norm)) =
        candidate_events m norm cd ++
          cds.flatMap (candidate_events m norm) := rfl
    rw [hcons, List.foldl_append, foldl_evStep_candidate, List.foldl_cons,
      ih]

/-- `find_best_match` is the single left fold of the running-best update
over `match_events`, guarded by the empty-text check. -/
theorem find_best_match_eq_fold (m : CardMatcher) (t : String) :
    m.find_best_match t =
      (if rust_is_empty (rust_trim (rust_to_lowercase t)) then none
        else ((match_events m (rust_trim (rust_to_lowercase t))).foldl
          (evStep t) (none, m.min_score)).1) := by
  unfold CardMatcher.find_best_match match_events
  by_cases he : rust_is_empty (rust_trim (rust_to_lowercase t))
  · simp [he]
  · simp only [he, if_false, Bool.false_eq_true, ite_false]
    rw [foldl_evStep_flatMap]

/-- The fold keeps `(none, b)` exactly while every score is at most `b`;
otherwise its state is built from the first event that strictly tops all
earlier scores and is at least all later ones — the first-encountered
strict maximum above the threshold. -/
theorem foldl_evStep_spec (t : String) (b : Int)
    (l : List (String × String × Int)) :
    ((l.foldl (evStep t) (none, b)).1 = none ∧
      (l.foldl (evStep t) (none, b)).2 = b ∧ ∀ e ∈ l, eScore e ≤ b) ∨
    (∃ l₁ e l₂, l = l₁ ++ e :: l₂ ∧
      (l.foldl (evStep t) (none, b)).1 = some (mkEventMatch t e) ∧
      (l.foldl (evStep t) (none, b)).2 = eScore e ∧
      b < eScore e ∧
      (∀ x ∈ l₁, eScore x < eScore e) ∧
      (∀ x ∈ l₂, eScore x ≤ eScore e)) := by
  induction l using List.reverseRecOn with
  | nil => exact Or.inl ⟨rfl, rfl, by simp⟩
  | append_singleton l x ih =>
    rw [List.foldl_append, List.foldl_cons, List.foldl_nil]
    rcases ih with ⟨h1, h2, h3⟩ | ⟨l₁, e, l₂, hdec, h1, h2, h3, h4, h5⟩
    · by_cases hx : b < eScore x
      · have hcond : (l.foldl (evStep t) (none, b)).2 < x.2.2 := by
          rw [h2]; exact hx
        refine Or.inr ⟨l, x, [], by simp, ?_, ?_, hx, ?_, by simp⟩
        · simp only [evStep, fbmUpdate, if_pos hcond]
          rfl
        · simp only [evStep, fbmUpdate, if_pos hcond]
          rfl
        · intro y hy
          exact lt_of_le_of_lt (h3 y hy) hx
      · have hcond : ¬ (l.foldl (evStep t) (none, b)).2 < x.2.2 := by
          rw [h2]; exact hx
        refine Or.inl ⟨?_, ?_, ?_⟩
        · simp only [evStep, fbmUpdate, if_neg hcond]
          exact h1
        · simp only [evStep, fbmUpdate, if_neg hcond]
          exact h2
        · intro y hy
          rcases List.mem_append.mp hy with hy | hy
          · exact h3 y hy
          · rcases List.mem_singleton.mp hy with rfl
            exact not_lt.mp hx
    · by_cases hx : eScore e < eScore x
      · have hcond : (l.foldl (evStep t) (none, b)).2 < x.2.2 := by
          rw [h2]; exact hx
        refine Or.inr ⟨l, x, [], by simp, ?_, ?_, lt_trans h3 hx, ?_,
          by simp⟩
        · simp only [evStep, fbmUpdate, if_pos hcond]
          rfl
        · simp only [evStep, fbmUpdate, if_pos hcond]
          rfl
        · intro y hy
          rw [hdec] at hy
          rcases List.mem_append.mp hy with hy | hy
          · exact lt_trans (lt_of_lt_of_le (h4 y hy) le_rfl) hx
          · rcases List.mem_cons.mp hy with rfl | hy
            · exact hx
            · exact lt_of_le_of_lt (h5 y hy) hx
      · have hcond : ¬ (l.foldl (evStep t) (none, b)).2 < x.2.2 := by
          rw [h2]; exact hx
        refine Or.inr ⟨l₁, e, l₂ ++ [x], by rw [hdec]; simp, ?_, ?_, h3,
          h4, ?_⟩
        · simp only [evStep, fbmUpdate, if_neg hcond]
          exact h1
        · simp only [evStep, fbmUpdate, if_neg hcond]
          exact h2
        · intro y hy
          rcases List.mem_append.mp hy with hy | hy
          · exact h5 y hy
          · rcases List.mem_singleton.mp hy with rfl
            exact not_lt.mp hx

/-- C6: `find_best_match` returns `None` exactly when the lowercased,
trimmed text is empty or no scoring opportunity (whole-name pass plus,
for normalized text shorter than 10 bytes, the per-word pass) strictly
exceeds the configured minimum; otherwise it returns the candidate of
the first-encountered strict-maximum opportunity — so ties go to the
earlier corpus entry — with `match_score` capped at 100. -/
theorem find_best_match_spec (m : CardMatcher) (ocr_text : String) :
    (m.find_best_match ocr_text = none ↔
      rust_is_empty (rust_trim (rust_to_lowercase ocr_text)) = true ∨
      ∀ e ∈ match_events m (rust_trim (rust_to_lowercase ocr_text)),
        eScore e ≤ m.min_score) ∧
    (∀ cm, m.find_best_match ocr_text = some cm →
      ∃ l₁ e l₂,
        match_events m (rust_trim (rust_to_lowercase ocr_text)) =
          l₁ ++ e :: l₂ ∧
        m.min_score < eScore e ∧
        cm = mkEventMatch ocr_text e ∧
        cm.match_score = min (eScore e) 100 ∧
        cm.match_score ≤ 100 ∧
        (∀ x ∈ l₁, eScore x < eScore e) ∧
        (∀ x ∈ l₂, eScore x ≤ eScore e)) := by
  by_cases he : rust_is_empty (rust_trim (rust_to_lowercase ocr_text)) = true
  · rw [find_best_match_eq_fold, if_pos he]
    constructor
    · exact iff_of_true rfl (Or.inl he)
    · intro cm hcm
      exact absurd hcm (by simp)
  · rw [find_best_match_eq_fold, if_neg he]
    rcases foldl_evStep_spec ocr_text m.min_score
        (match_events m (rust_trim (rust_to_lowercase ocr_text))) with
      ⟨h1, h2, h3⟩ | ⟨l₁, e, l₂, hdec, h1, h2, h3, h4, h5⟩
    · constructor
      · rw [h1]
        exact iff_of_true rfl (Or.inr h3)
      · intro cm hcm
        rw [h1] at hcm
        exact absurd hcm (by simp)
    · constructor
      · rw [h1]
        constructor
        · intro h
          exact absurd h (by simp)
        · intro h
          rcases h with h | h
          · exact absurd h he
          · have hmem : e ∈ match_events m
                (rust_trim (rust_to_lowercase ocr_text)) := by
              rw [hdec]
              exact List.mem_append_right _ (List.mem_cons_self _ _)
            exact absurd (h e hmem) (not_le.mpr h3)
      · intro cm hcm
        rw [h1] at hcm
        obtain rfl : mkEventMatch ocr_text e = cm := Option.some.inj hcm
        exact ⟨l₁, e, l₂, hdec, h3, rfl, rfl, min_le_right _ _, h4, h5⟩

/-- Witness for C6: on the one-card demo matcher, "zzz" (no opportunity
above 60) yields `None`, and "Fel" yields the decomposition around the
winning score-100 opportunity. -/
theorem find_best_match_spec_witness :
    demoMatcher.find_best_match "zzz" = none ∧
    (∃ l₁ e l₂,
      match_events demoMatcher (rust_trim (rust_to_lowercase "Fel")) =
        l₁ ++ e :: l₂ ∧
      demoMatcher.min_score < eScore e ∧
      demoCardMatch = mkEventMatch "Fel" e ∧
      demoCardMatch.match_score = min (eScore e) 100 ∧
      demoCardMatch.match_score ≤ 100 ∧
      (∀ x ∈ l₁, eScore x < eScore e) ∧
      (∀ x ∈ l₂, eScore x ≤ eScore e)) := by
  constructor
  · exact (find_best_match_spec demoMatcher "zzz").1.mpr (Or.inr (by decide))
  · exact (find_best_match_spec demoMatcher "Fel").2 demoCardMatch
      (by decide)
